import Mathlib

/-!
Verification development for the cfnts NTS-KE client core and its
server-side cookie key rotation engine.

The rotation engine is embedded from src/rotation.rs; the handshake
driver from src/nts_ke/client.rs.  Machine integers (i64, u32, u8) are
modelled as Int and Nat with explicit reductions modulo powers of two
where the Rust code truncates.  Rust i64 division truncates toward
zero, which is Int.tdiv.  The external collaborators (memcache
transport, the ring HMAC implementation, DNS resolution, rustls server
name validation) are passed in as explicit parameters, exactly as the
source abstracts the cache behind the VecMap trait.
-/

/-- KeyID is the Rust type alias pub type KeyID = [u8; 4], a 4-tuple of
bytes given as naturals below 256. -/
abbrev KeyID := Nat × Nat × Nat × Nat

/-- Embedding of fn be_bytes(n: i64) -> [u8; 4] from src/rotation.rs.
The Rust body casts n to u32 (reduction mod 2^32) and then loops
for i in 0..3, writing ret[3 - i] = u as u8 and shifting u right by 8.
The loop runs for i = 0, 1, 2 only, so ret[0] is never written and
keeps its initial value 0. -/
def be_bytes (n : Int) : KeyID :=
  let u : Nat := (n % (2 : Int) ^ 32).toNat
  (0, u / 2 ^ 16 % 2 ^ 8, u / 2 ^ 8 % 2 ^ 8, u % 2 ^ 8)

/-- Modelled from the spec: the intended KeyId encoding, namely the
big-endian encoding of the low 32 bits of the epoch, with all four
bytes taken from the value.  Used only to compare be_bytes against the
spec sentence it documents. -/
def be_bytes_spec (n : Int) : KeyID :=
  let u : Nat := (n % (2 : Int) ^ 32).toNat
  (u / 2 ^ 24 % 2 ^ 8, u / 2 ^ 16 % 2 ^ 8, u / 2 ^ 8 % 2 ^ 8, u % 2 ^ 8)

/-- Embedding of RotatingKeys::epoch from src/rotation.rs:
((seconds / self.duration) + offset) * self.duration, with Rust i64
division (truncation toward zero, Int.tdiv). -/
def epochAt (duration seconds offset : Int) : Int :=
  (Int.tdiv seconds duration + offset) * duration

/-- The list of window offsets -backward_periods .. forward_periods
iterated by the Rust range -self.backward_periods..(self.forward_periods + 1)
in internal_rotate.  Empty when the range is empty. -/
def windowOffsets (backward_periods forward_periods : Int) : List Int :=
  (List.range (forward_periods + 1 + backward_periods).toNat).map
    (fun (j : Nat) => -backward_periods + (j : Int))

/-- The single error of the abstract cache transport (MemcacheError in
the source, behind the VecMap trait). -/
inductive CacheErr where
  | transport
deriving DecidableEq

/-- The VecMap trait of src/rotation.rs: fn get(&mut self, key: &str)
-> Result<Option<Vec<u8>>, MemcacheError>.  Byte vectors are lists of
naturals. -/
abbrev Cache := String → Except CacheErr (Option (List Nat))

instance {ε α : Type} [DecidableEq ε] [DecidableEq α] : DecidableEq (Except ε α) :=
  fun x y =>
    match x, y with
    | .ok a, .ok b =>
      if h : a = b then .isTrue (h ▸ rfl) else .isFalse (fun hh => h (Except.ok.inj hh))
    | .error a, .error b =>
      if h : a = b then .isTrue (h ▸ rfl) else .isFalse (fun hh => h (Except.error.inj hh))
    | .ok _, .error _ => .isFalse (fun hh => Except.noConfusion hh)
    | .error _, .ok _ => .isFalse (fun hh => Except.noConfusion hh)

/-- The external ring HMAC-SHA256: a function from key and message to
tag.  RotatingKeys::compute_wrap applies it to master_key and the
cached value; the ring crate supplies the actual primitive. -/
abbrev Hmac := List Nat → List Nat → List Nat

/-- State of the key map, embedding HashMap<KeyID, Vec<u8>> as an
association list with nodup keys. -/
abbrev KeyMap := AList (fun _ : KeyID => List Nat)

/-- Embedding of the RotatingKeys struct from src/rotation.rs.
memcache_url and logger carry no semantics for the verified
operations and are omitted; the field named prefix in Rust is called
pfx because prefix is a Lean keyword. -/
structure RotatingKeys where
  pfx : String
  duration : Int
  forward_periods : Int
  backward_periods : Int
  master_key : List Nat
  latest : KeyID
  keys : KeyMap

/-- Outcome of internal_rotate: Ok(()), the cache-miss io::Error built
at the end when the failed flag is set, or an early return of a
MemcacheError propagated by the question mark operator on client.get. -/
inductive RotOutcome where
  | ok
  | cacheMiss
  | transport
deriving DecidableEq

/-- The cache location string of a window slot, the Rust
format!("{}/{}", self.prefix, epoch) in internal_rotate. -/
def slotLoc (pfx : String) (duration timestamp k : Int) : String :=
  pfx ++ "/" ++ toString (epochAt duration timestamp k)

/-- The for-loop of internal_rotate over the window offsets: for each
offset, compute the epoch, fetch prefix/epoch from the cache; on a hit
insert the wrapped value under be_bytes(epoch); on a miss set the
failed flag; on a transport error return at once (the question mark
operator), keeping the inserts made so far.  Returns the key map, the
failed flag, and whether a transport error aborted the loop. -/
def rotateWindow (hmac : Hmac) (mk : List Nat) (pfx : String) (duration : Int)
    (cache : Cache) (timestamp : Int) :
    List Int → KeyMap → Bool → KeyMap × Bool × Bool
  | [], ks, failed => (ks, failed, false)
  | k :: rest, ks, failed =>
    match cache (slotLoc pfx duration timestamp k) with
    | .error _ => (ks, failed, true)
    | .ok (some v) =>
        rotateWindow hmac mk pfx duration cache timestamp rest
          (ks.insert (be_bytes (epochAt duration timestamp k)) (hmac mk v)) failed
    | .ok none =>
        rotateWindow hmac mk pfx duration cache timestamp rest ks true

/-- Embedding of RotatingKeys::internal_rotate from src/rotation.rs.
After the window loop (unless a transport error aborted it), the entry
at be_bytes(epoch(timestamp, -backward_periods - 1)) is removed, latest
is set to be_bytes(epoch(timestamp, 0)), and the call returns Err when
any slot was missing.  On a transport abort the mutations made so far
persist but neither the removal nor the latest update happens. -/
def internal_rotate (hmac : Hmac) (cache : Cache) (s : RotatingKeys)
    (timestamp : Int) : RotatingKeys × RotOutcome :=
  let r := rotateWindow hmac s.master_key s.pfx s.duration cache timestamp
    (windowOffsets s.backward_periods s.forward_periods) s.keys false
  if r.2.2 then
    ({ s with keys := r.1 }, .transport)
  else
    ({ s with
        keys := r.1.erase
          (be_bytes (epochAt s.duration timestamp (-s.backward_periods - 1))),
        latest := be_bytes (epochAt s.duration timestamp 0) },
     if r.2.1 then .cacheMiss else .ok)

/-- Embedding of RotatingKeys::latest(): it evaluates
self.keys[&self.latest], the HashMap Index operator, which panics when
the key is absent.  The panic is modelled as the none result. -/
def RotatingKeys.latestLookup (s : RotatingKeys) : Option (KeyID × List Nat) :=
  match s.keys.lookup s.latest with
  | some v => some (s.latest, v)
  | none => none

-- Sanity examples reproducing the source's own unit test scenario
-- (duration 1, one forward and one backward period, cache populated at
-- epochs 1..4 and missing at 0 and 5).

def testCache : Cache := fun loc =>
  if loc = "test/1" then .ok (some (List.replicate 32 1))
  else if loc = "test/2" then .ok (some (List.replicate 32 2))
  else if loc = "test/3" then .ok (some (List.replicate 32 3))
  else if loc = "test/4" then .ok (some (List.replicate 32 4))
  else .ok none

def testRotor : RotatingKeys :=
  { pfx := "test", duration := 1, forward_periods := 1, backward_periods := 1,
    master_key := [0, 32], latest := (1, 2, 3, 4), keys := ∅ }

def testHmac : Hmac := fun _ v => 9 :: v

example : (internal_rotate testHmac testCache testRotor 2).2 = .ok := by decide
example : (internal_rotate testHmac testCache testRotor 1).2 = .cacheMiss := by decide
example : (internal_rotate testHmac testCache testRotor 4).2 = .cacheMiss := by decide
example :
    (internal_rotate testHmac testCache
      (internal_rotate testHmac testCache testRotor 2).1 3).1.latest ≠
    (internal_rotate testHmac testCache testRotor 2).1.latest := by decide

/-! Properties of the KeyId encoding -/

/-- Two epochs get the same KeyId exactly when they agree modulo 2^24:
the loop in be_bytes emits only the low three bytes, the top byte is
always zero. -/
theorem be_bytes_eq_iff (n m : Int) :
    be_bytes n = be_bytes m ↔ n % 2 ^ 24 = m % 2 ^ 24 := by
  simp only [be_bytes, Prod.mk.injEq, true_and]
  omega

/-- Distinct epochs modulo 2^24 get distinct KeyIds. -/
theorem be_bytes_ne (n m : Int) (h : n % 2 ^ 24 ≠ m % 2 ^ 24) :
    be_bytes n ≠ be_bytes m :=
  fun he => h ((be_bytes_eq_iff n m).mp he)

/-! Lemmas about the rotation window loop -/

/-- Lookup at an id is untouched by the window loop when every slot
that could insert at that id is a miss or a transport error. -/
theorem rotateWindow_lookup_preserved (hmac : Hmac) (mk : List Nat) (pfx : String)
    (duration : Int) (cache : Cache) (timestamp : Int) :
    ∀ (offs : List Int) (ks : KeyMap) (failed : Bool) (id : KeyID),
      (∀ k ∈ offs, be_bytes (epochAt duration timestamp k) ≠ id ∨
        cache (slotLoc pfx duration timestamp k) = .ok none ∨
        cache (slotLoc pfx duration timestamp k) = .error .transport) →
      (rotateWindow hmac mk pfx duration cache timestamp offs ks failed).1.lookup id
        = ks.lookup id
  | [], ks, failed, id, _ => by simp [rotateWindow]
  | k :: rest, ks, failed, id, h => by
    have hk := h k (List.mem_cons_self k rest)
    have hrest := fun j hj => h j (List.mem_cons_of_mem k hj)
    cases hc : cache (slotLoc pfx duration timestamp k) with
    | error e => simp [rotateWindow, hc]
    | ok o =>
      cases o with
      | none =>
        simp only [rotateWindow, hc]
        exact rotateWindow_lookup_preserved hmac mk pfx duration cache timestamp
          rest ks true id hrest
      | some v =>
        simp only [rotateWindow, hc]
        rw [rotateWindow_lookup_preserved hmac mk pfx duration cache timestamp
          rest _ failed id hrest]
        have hne : be_bytes (epochAt duration timestamp k) ≠ id := by
          rcases hk with h1 | h2 | h3
          · exact h1
          · rw [hc] at h2; exact absurd h2 (by simp)
          · rw [hc] at h3; exact absurd h3 (by simp)
        exact AList.lookup_insert_ne (Ne.symm hne)

/-- Every id present after the window loop was present before or is
the KeyId of one of the window slots. -/
theorem rotateWindow_mem (hmac : Hmac) (mk : List Nat) (pfx : String)
    (duration : Int) (cache : Cache) (timestamp : Int) :
    ∀ (offs : List Int) (ks : KeyMap) (failed : Bool) (id : KeyID),
      id ∈ (rotateWindow hmac mk pfx duration cache timestamp offs ks failed).1 →
      id ∈ ks ∨ ∃ k ∈ offs, be_bytes (epochAt duration timestamp k) = id
  | [], ks, failed, id, h => by
    simp only [rotateWindow] at h
    exact Or.inl h
  | k :: rest, ks, failed, id, h => by
    cases hc : cache (slotLoc pfx duration timestamp k) with
    | error e =>
      rw [rotateWindow, hc] at h
      exact Or.inl h
    | ok o =>
      cases o with
      | none =>
        rw [rotateWindow, hc] at h
        rcases rotateWindow_mem hmac mk pfx duration cache timestamp
            rest ks true id h with h1 | ⟨j, hj, hje⟩
        · exact Or.inl h1
        · exact Or.inr ⟨j, List.mem_cons_of_mem k hj, hje⟩
      | some v =>
        rw [rotateWindow, hc] at h
        rcases rotateWindow_mem hmac mk pfx duration cache timestamp
            rest _ failed id h with h1 | ⟨j, hj, hje⟩
        · rcases (AList.mem_insert ks).mp h1 with h2 | h3
          · exact Or.inr ⟨k, List.mem_cons_self k rest, h2.symm⟩
          · exact Or.inl h3
        · exact Or.inr ⟨j, List.mem_cons_of_mem k hj, hje⟩

/-- The loop never aborts when no slot returns a transport error. -/
theorem rotateWindow_no_transport (hmac : Hmac) (mk : List Nat) (pfx : String)
    (duration : Int) (cache : Cache) (timestamp : Int) :
    ∀ (offs : List Int) (ks : KeyMap) (failed : Bool),
      (∀ k ∈ offs, cache (slotLoc pfx duration timestamp k) ≠ .error .transport) →
      (rotateWindow hmac mk pfx duration cache timestamp offs ks failed).2.2 = false
  | [], ks, failed, _ => by simp [rotateWindow]
  | k :: rest, ks, failed, h => by
    cases hc : cache (slotLoc pfx duration timestamp k) with
    | error e =>
      cases e
      exact absurd hc (h k (List.mem_cons_self k rest))
    | ok o =>
      cases o with
      | none =>
        rw [rotateWindow, hc]
        exact rotateWindow_no_transport hmac mk pfx duration cache timestamp
          rest ks true (fun j hj => h j (List.mem_cons_of_mem k hj))
      | some v =>
        rw [rotateWindow, hc]
        exact rotateWindow_no_transport hmac mk pfx duration cache timestamp
          rest _ failed (fun j hj => h j (List.mem_cons_of_mem k hj))

/-- Once set, the failed flag survives to the end of the loop. -/
theorem rotateWindow_failed_mono (hmac : Hmac) (mk : List Nat) (pfx : String)
    (duration : Int) (cache : Cache) (timestamp : Int) :
    ∀ (offs : List Int) (ks : KeyMap),
      (rotateWindow hmac mk pfx duration cache timestamp offs ks true).2.1 = true
  | [], ks => by simp [rotateWindow]
  | k :: rest, ks => by
    cases hc : cache (slotLoc pfx duration timestamp k) with
    | error e => simp [rotateWindow, hc]
    | ok o =>
      cases o with
      | none =>
        rw [rotateWindow, hc]
        exact rotateWindow_failed_mono hmac mk pfx duration cache timestamp rest ks
      | some v =>
        rw [rotateWindow, hc]
        exact rotateWindow_failed_mono hmac mk pfx duration cache timestamp rest _

/-- A miss at any slot sets the failed flag, provided no transport
error cuts the loop short before reaching it. -/
theorem rotateWindow_failed_of_miss (hmac : Hmac) (mk : List Nat) (pfx : String)
    (duration : Int) (cache : Cache) (timestamp : Int) :
    ∀ (offs : List Int) (ks : KeyMap) (failed : Bool),
      (∀ k ∈ offs, cache (slotLoc pfx duration timestamp k) ≠ .error .transport) →
      (∃ k ∈ offs, cache (slotLoc pfx duration timestamp k) = .ok none) →
      (rotateWindow hmac mk pfx duration cache timestamp offs ks failed).2.1 = true
  | [], ks, failed, _, hex => by
    rcases hex with ⟨k, hk, _⟩
    exact absurd hk (List.not_mem_nil k)
  | k :: rest, ks, failed, htr, hex => by
    cases hc : cache (slotLoc pfx duration timestamp k) with
    | error e =>
      cases e
      exact absurd hc (htr k (List.mem_cons_self k rest))
    | ok o =>
      cases o with
      | none =>
        rw [rotateWindow, hc]
        exact rotateWindow_failed_mono hmac mk pfx duration cache timestamp rest ks
      | some v =>
        rw [rotateWindow, hc]
        rcases hex with ⟨j, hj, hjm⟩
        rcases List.mem_cons.mp hj with rfl | hj2
        · rw [hc] at hjm; exact absurd hjm (by simp)
        · exact rotateWindow_failed_of_miss hmac mk pfx duration cache timestamp
            rest _ failed (fun i hi => htr i (List.mem_cons_of_mem k hi)) ⟨j, hj2, hjm⟩

/-- A slot hit ends up installed in the map under its KeyId, carrying
the wrapped value, provided no slot suffers a transport error and no
other slot's KeyId collides with this one. -/
theorem rotateWindow_lookup_hit (hmac : Hmac) (mk : List Nat) (pfx : String)
    (duration : Int) (cache : Cache) (timestamp : Int) :
    ∀ (offs : List Int) (ks : KeyMap) (failed : Bool) (k : Int) (v : List Nat),
      k ∈ offs →
      cache (slotLoc pfx duration timestamp k) = .ok (some v) →
      (∀ j ∈ offs, cache (slotLoc pfx duration timestamp j) ≠ .error .transport) →
      (∀ j ∈ offs, j ≠ k →
        be_bytes (epochAt duration timestamp j) ≠ be_bytes (epochAt duration timestamp k)) →
      (rotateWindow hmac mk pfx duration cache timestamp offs ks failed).1.lookup
        (be_bytes (epochAt duration timestamp k)) = some (hmac mk v)
  | [], ks, failed, k, v, hk, _, _, _ => absurd hk (List.not_mem_nil k)
  | j :: rest, ks, failed, k, v, hk, hv, htr, hcoll => by
    have htr2 := fun i hi => htr i (List.mem_cons_of_mem j hi)
    have hcoll2 := fun i hi => hcoll i (List.mem_cons_of_mem j hi)
    by_cases hkr : k ∈ rest
    · cases hc : cache (slotLoc pfx duration timestamp j) with
      | error e =>
        cases e
        exact absurd hc (htr j (List.mem_cons_self j rest))
      | ok o =>
        cases o with
        | none =>
          rw [rotateWindow, hc]
          exact rotateWindow_lookup_hit hmac mk pfx duration cache timestamp
            rest ks true k v hkr hv htr2 hcoll2
        | some w =>
          rw [rotateWindow, hc]
          exact rotateWindow_lookup_hit hmac mk pfx duration cache timestamp
            rest _ failed k v hkr hv htr2 hcoll2
    · have hjk : j = k := by
        rcases List.mem_cons.mp hk with rfl | h2
        · rfl
        · exact absurd h2 hkr
      subst hjk
      rw [rotateWindow, hv]
      rw [rotateWindow_lookup_preserved hmac mk pfx duration cache timestamp
        rest _ failed (be_bytes (epochAt duration timestamp j))
        (fun i hi => Or.inl (hcoll i (List.mem_cons_of_mem j hi)
          (fun he => hkr (he ▸ hi))))]
      exact AList.lookup_insert ks

/-! Shape facts about internal_rotate -/

/-- Rotation leaves the configuration fields unchanged. -/
theorem internal_rotate_duration (hmac : Hmac) (cache : Cache) (s : RotatingKeys)
    (timestamp : Int) :
    (internal_rotate hmac cache s timestamp).1.duration = s.duration := by
  cases hb : (rotateWindow hmac s.master_key s.pfx s.duration cache timestamp
      (windowOffsets s.backward_periods s.forward_periods) s.keys false).2.2 <;>
    simp [internal_rotate, hb]

/-- When no transport error aborts the call, latest is set to the
KeyId of the current epoch. -/
theorem internal_rotate_latest (hmac : Hmac) (cache : Cache) (s : RotatingKeys)
    (timestamp : Int)
    (h : (internal_rotate hmac cache s timestamp).2 ≠ .transport) :
    (internal_rotate hmac cache s timestamp).1.latest
      = be_bytes (epochAt s.duration timestamp 0) := by
  cases hb : (rotateWindow hmac s.master_key s.pfx s.duration cache timestamp
      (windowOffsets s.backward_periods s.forward_periods) s.keys false).2.2
  · simp [internal_rotate, hb]
  · exact absurd (by simp [internal_rotate, hb]) h

/-- Rotation keys after a run the loop finished: the window result
with the retirement id erased. -/
theorem internal_rotate_keys_eq (hmac : Hmac) (cache : Cache) (s : RotatingKeys)
    (timestamp : Int)
    (h : (rotateWindow hmac s.master_key s.pfx s.duration cache timestamp
      (windowOffsets s.backward_periods s.forward_periods) s.keys false).2.2 = false) :
    (internal_rotate hmac cache s timestamp).1.keys
      = (rotateWindow hmac s.master_key s.pfx s.duration cache timestamp
          (windowOffsets s.backward_periods s.forward_periods) s.keys false).1.erase
          (be_bytes (epochAt s.duration timestamp (-s.backward_periods - 1))) := by
  simp [internal_rotate, h]

/-- Rotation keys after a transport abort: whatever the loop had
inserted so far, with no retirement. -/
theorem internal_rotate_keys_transport (hmac : Hmac) (cache : Cache) (s : RotatingKeys)
    (timestamp : Int)
    (h : (rotateWindow hmac s.master_key s.pfx s.duration cache timestamp
      (windowOffsets s.backward_periods s.forward_periods) s.keys false).2.2 = true) :
    (internal_rotate hmac cache s timestamp).1.keys
      = (rotateWindow hmac s.master_key s.pfx s.duration cache timestamp
          (windowOffsets s.backward_periods s.forward_periods) s.keys false).1 := by
  simp [internal_rotate, h]

/-- Outcome when the loop ran to the end. -/
theorem internal_rotate_outcome (hmac : Hmac) (cache : Cache) (s : RotatingKeys)
    (timestamp : Int)
    (h : (rotateWindow hmac s.master_key s.pfx s.duration cache timestamp
      (windowOffsets s.backward_periods s.forward_periods) s.keys false).2.2 = false) :
    (internal_rotate hmac cache s timestamp).2
      = (if (rotateWindow hmac s.master_key s.pfx s.duration cache timestamp
          (windowOffsets s.backward_periods s.forward_periods) s.keys false).2.1
         then RotOutcome.cacheMiss else RotOutcome.ok) := by
  simp [internal_rotate, h]

/-- Outcome when the loop was cut short by a transport error. -/
theorem internal_rotate_outcome_transport (hmac : Hmac) (cache : Cache)
    (s : RotatingKeys) (timestamp : Int)
    (h : (rotateWindow hmac s.master_key s.pfx s.duration cache timestamp
      (windowOffsets s.backward_periods s.forward_periods) s.keys false).2.2 = true) :
    (internal_rotate hmac cache s timestamp).2 = RotOutcome.transport := by
  simp [internal_rotate, h]

/-- Window offsets are bounded below by -backward_periods. -/
theorem windowOffsets_mem_lb {b f k : Int} (h : k ∈ windowOffsets b f) : -b ≤ k := by
  simp only [windowOffsets, List.mem_map, List.mem_range] at h
  rcases h with ⟨j, _, rfl⟩
  have hj : (0 : Int) ≤ (j : Int) := Int.natCast_nonneg j
  omega

/-! Claim C1 -/

/-- C1: the claim states that be_bytes(e) is the big-endian encoding of
the low 32 bits of e, with all four bytes determined by e, as the
function's own doc comment also says.  The code disagrees: the loop
for i in 0..3 runs for i = 0, 1, 2 only and never writes ret[0], so the
top byte is 0 for every input.  At epoch 2^24 the code yields
(0,0,0,0) while the big-endian low 32 bits are (1,0,0,0). -/
theorem c1_keyid_top_byte_never_written :
    be_bytes 16777216 = (0, 0, 0, 0) ∧ be_bytes_spec 16777216 = (1, 0, 0, 0) ∧
      be_bytes 16777216 ≠ be_bytes_spec 16777216 ∧ ∀ n : Int, (be_bytes n).1 = 0 :=
  ⟨by decide, by decide, by decide, fun _ => rfl⟩

/-! Claim C2 -/

/-- Cache and state exhibiting a KeyId collision: with duration 2^24
the retirement epoch 0 and the current epoch 2^24 share the KeyId
(0,0,0,0), so the retirement removal erases the key installed for the
present slot 0 while slot 1 is missing. -/
def collCache : Cache := fun loc =>
  if loc = "p/16777216" then .ok (some [7]) else .ok none

def collRotor : RotatingKeys :=
  { pfx := "p", duration := 16777216, forward_periods := 1, backward_periods := 0,
    master_key := [], latest := (1, 1, 1, 1), keys := ∅ }

/-- C2 counterexample: duration 2^24, window offsets 0 and 1 at
timestamp 2^24.  Slot 0 is present in the cache and slot 1 is missing,
no lookup errs, yet after internal_rotate the present slot 0 is NOT
installed under its KeyId: the retirement id be_bytes(epoch(t,-1)) =
be_bytes(0) collides with be_bytes(2^24) and removes it.  The claim's
conclusion that every present slot is installed fails. -/
theorem c2_counterexample :
    (0 : Int) < collRotor.duration ∧
    (∀ k ∈ windowOffsets collRotor.backward_periods collRotor.forward_periods,
      collCache (slotLoc collRotor.pfx collRotor.duration 16777216 k)
        ≠ .error .transport) ∧
    (∃ k ∈ windowOffsets collRotor.backward_periods collRotor.forward_periods,
      collCache (slotLoc collRotor.pfx collRotor.duration 16777216 k) = .ok none) ∧
    collCache (slotLoc collRotor.pfx collRotor.duration 16777216 0) = .ok (some [7]) ∧
    (0 : Int) ∈ windowOffsets collRotor.backward_periods collRotor.forward_periods ∧
    (internal_rotate testHmac collCache collRotor 16777216).1.keys.lookup
      (be_bytes (epochAt collRotor.duration 16777216 0)) = none := by decide

/-- C2 (amended): with duration positive, no transport error, at least
one missing window slot, and the KeyIds of the window slots and the
retirement slot pairwise distinct (which holds whenever the window
epochs are pairwise distinct modulo 2^24), internal_rotate returns the
cache-miss error, every slot present in the cache is installed wrapped
under its KeyId, and latest is set to be_bytes(epoch(timestamp, 0)). -/
theorem c2_rotation_failure_semantics (hmac : Hmac) (cache : Cache)
    (s : RotatingKeys) (timestamp : Int)
    (hdur : 0 < s.duration)
    (htr : ∀ k ∈ windowOffsets s.backward_periods s.forward_periods,
      cache (slotLoc s.pfx s.duration timestamp k) ≠ .error .transport)
    (hmiss : ∃ k ∈ windowOffsets s.backward_periods s.forward_periods,
      cache (slotLoc s.pfx s.duration timestamp k) = .ok none)
    (hinj : ∀ k1 ∈ (-s.backward_periods - 1) ::
        windowOffsets s.backward_periods s.forward_periods,
      ∀ k2 ∈ (-s.backward_periods - 1) ::
        windowOffsets s.backward_periods s.forward_periods,
      k1 ≠ k2 →
        be_bytes (epochAt s.duration timestamp k1)
          ≠ be_bytes (epochAt s.duration timestamp k2)) :
    (internal_rotate hmac cache s timestamp).2 = .cacheMiss ∧
    (∀ k ∈ windowOffsets s.backward_periods s.forward_periods, ∀ v : List Nat,
      cache (slotLoc s.pfx s.duration timestamp k) = .ok (some v) →
      (internal_rotate hmac cache s timestamp).1.keys.lookup
        (be_bytes (epochAt s.duration timestamp k)) = some (hmac s.master_key v)) ∧
    (internal_rotate hmac cache s timestamp).1.latest
      = be_bytes (epochAt s.duration timestamp 0) := by
  have hab : (rotateWindow hmac s.master_key s.pfx s.duration cache timestamp
      (windowOffsets s.backward_periods s.forward_periods) s.keys false).2.2 = false :=
    rotateWindow_no_transport hmac s.master_key s.pfx s.duration cache timestamp
      (windowOffsets s.backward_periods s.forward_periods) s.keys false htr
  have hfl : (rotateWindow hmac s.master_key s.pfx s.duration cache timestamp
      (windowOffsets s.backward_periods s.forward_periods) s.keys false).2.1 = true :=
    rotateWindow_failed_of_miss hmac s.master_key s.pfx s.duration cache timestamp
      (windowOffsets s.backward_periods s.forward_periods) s.keys false htr hmiss
  refine ⟨?_, ?_, ?_⟩
  · rw [internal_rotate_outcome hmac cache s timestamp hab, hfl]
    rfl
  · intro k hk v hv
    rw [internal_rotate_keys_eq hmac cache s timestamp hab]
    have hkA : k ∈ (-s.backward_periods - 1) ::
        windowOffsets s.backward_periods s.forward_periods :=
      List.mem_cons_of_mem _ hk
    have hkne : k ≠ -s.backward_periods - 1 := by
      have := windowOffsets_mem_lb hk
      omega
    have hret : be_bytes (epochAt s.duration timestamp k)
        ≠ be_bytes (epochAt s.duration timestamp (-s.backward_periods - 1)) :=
      hinj k hkA (-s.backward_periods - 1) (List.mem_cons_self _ _) hkne
    rw [AList.lookup_erase_ne hret]
    exact rotateWindow_lookup_hit hmac s.master_key s.pfx s.duration cache timestamp
      (windowOffsets s.backward_periods s.forward_periods) s.keys false k v hk hv htr
      (fun j hj hjk => hinj j (List.mem_cons_of_mem _ hj) k hkA hjk)
  · refine internal_rotate_latest hmac cache s timestamp ?_
    rw [internal_rotate_outcome hmac cache s timestamp hab, hfl]
    simp

/-- C2 witness: the source's own test scenario at timestamp 1
(epoch 0 missing in the cache). -/
theorem c2_witness :
    (internal_rotate testHmac testCache testRotor 1).2 = RotOutcome.cacheMiss ∧
    (internal_rotate testHmac testCache testRotor 1).1.latest
      = be_bytes (epochAt testRotor.duration 1 0) := by
  have h := c2_rotation_failure_semantics testHmac testCache testRotor 1
    (by decide) (by decide) (by decide) (by decide)
  exact ⟨h.1, h.2.2⟩

/-! Claim C3 -/

/-- A cache in which every location is populated. -/
def allHitCache : Cache := fun _ => .ok (some [1])

/-- A state whose key map already holds an entry unrelated to any
window KeyId. -/
def junkRotor : RotatingKeys :=
  { pfx := "p", duration := 1, forward_periods := 0, backward_periods := 0,
    master_key := [], latest := (0, 0, 0, 0),
    keys := (∅ : KeyMap).insert (9, 9, 9, 9) [1] }

/-- C3 counterexample: rotation never removes more than the one
retirement id, so a pre-existing entry outside the window survives a
fully successful rotation and the map ends with 2 entries although
forward_periods + backward_periods + 1 = 1. -/
theorem c3_counterexample :
    (0 : Int) < junkRotor.duration ∧
    0 ≤ junkRotor.forward_periods ∧ 0 ≤ junkRotor.backward_periods ∧
    (internal_rotate testHmac allHitCache junkRotor 100).2 = .ok ∧
    ¬ (((internal_rotate testHmac allHitCache junkRotor 100).1.keys.entries.length : Int)
        ≤ junkRotor.forward_periods + junkRotor.backward_periods + 1) := by decide

/-- C3 (amended): when every KeyId already in the map belongs to the
rotation's own window or retirement slot (in particular when the map
starts empty, and in steady state when rotations run every period),
a successful internal_rotate leaves at most
forward_periods + backward_periods + 1 entries. -/
theorem c3_window_size (hmac : Hmac) (cache : Cache) (s : RotatingKeys)
    (timestamp : Int)
    (hdur : 0 < s.duration)
    (hf : 0 ≤ s.forward_periods) (hb : 0 ≤ s.backward_periods)
    (hpre : ∀ id ∈ s.keys.keys,
      id ∈ ((-s.backward_periods - 1) ::
        windowOffsets s.backward_periods s.forward_periods).map
        (fun k => be_bytes (epochAt s.duration timestamp k)))
    (hok : (internal_rotate hmac cache s timestamp).2 = .ok) :
    ((internal_rotate hmac cache s timestamp).1.keys.entries.length : Int)
      ≤ s.forward_periods + s.backward_periods + 1 := by
  have hab : (rotateWindow hmac s.master_key s.pfx s.duration cache timestamp
      (windowOffsets s.backward_periods s.forward_periods) s.keys false).2.2 = false := by
    cases hb2 : (rotateWindow hmac s.master_key s.pfx s.duration cache timestamp
        (windowOffsets s.backward_periods s.forward_periods) s.keys false).2.2
    · rfl
    · rw [internal_rotate_outcome_transport hmac cache s timestamp hb2] at hok
      exact absurd hok (by simp)
  have hkeys := internal_rotate_keys_eq hmac cache s timestamp hab
  have hall : ∀ id ∈ (internal_rotate hmac cache s timestamp).1.keys.keys,
      id ∈ (windowOffsets s.backward_periods s.forward_periods).map
        (fun k => be_bytes (epochAt s.duration timestamp k)) := by
    intro id hid
    have hmem : id ∈ (internal_rotate hmac cache s timestamp).1.keys :=
      AList.mem_keys.mpr hid
    rw [hkeys] at hmem
    rcases AList.mem_erase.mp hmem with ⟨hne, hmem2⟩
    rcases rotateWindow_mem hmac s.master_key s.pfx s.duration cache timestamp
        (windowOffsets s.backward_periods s.forward_periods) s.keys false id hmem2 with
      hold | ⟨k, hk, hke⟩
    · have := hpre id (AList.mem_keys.mp hold)
      rcases List.mem_map.mp this with ⟨k, hk, hke⟩
      rcases List.mem_cons.mp hk with rfl | hk2
      · exact absurd hke.symm hne
      · exact List.mem_map.mpr ⟨k, hk2, hke⟩
    · exact List.mem_map.mpr ⟨k, hk, hke⟩
  have hnd : (internal_rotate hmac cache s timestamp).1.keys.keys.Nodup :=
    AList.keys_nodup _
  have hsub : (internal_rotate hmac cache s timestamp).1.keys.keys.toFinset ⊆
      ((windowOffsets s.backward_periods s.forward_periods).map
        (fun k => be_bytes (epochAt s.duration timestamp k))).toFinset :=
    fun x hx => List.mem_toFinset.mpr (hall x (List.mem_toFinset.mp hx))
  have h1 : (internal_rotate hmac cache s timestamp).1.keys.keys.toFinset.card
      = (internal_rotate hmac cache s timestamp).1.keys.keys.length :=
    List.toFinset_card_of_nodup hnd
  have h2 : ((windowOffsets s.backward_periods s.forward_periods).map
      (fun k => be_bytes (epochAt s.duration timestamp k))).toFinset.card ≤
      ((windowOffsets s.backward_periods s.forward_periods).map
      (fun k => be_bytes (epochAt s.duration timestamp k))).length :=
    List.toFinset_card_le _
  have h3 := Finset.card_le_card hsub
  have h4 : ((windowOffsets s.backward_periods s.forward_periods).map
      (fun k => be_bytes (epochAt s.duration timestamp k))).length
      = (s.forward_periods + 1 + s.backward_periods).toNat := by
    simp [windowOffsets]
  have h5 : (internal_rotate hmac cache s timestamp).1.keys.keys.length
      = (internal_rotate hmac cache s timestamp).1.keys.entries.length := by
    simp [AList.keys, List.keys]
  omega

/-- C3 witness: the source's own test scenario at timestamp 2, a
successful rotation from the empty map. -/
theorem c3_witness :
    ((internal_rotate testHmac testCache testRotor 2).1.keys.entries.length : Int)
      ≤ testRotor.forward_periods + testRotor.backward_periods + 1 :=
  c3_window_size testHmac testCache testRotor 2 (by decide) (by decide) (by decide)
    (by decide) (by decide)

/-! Claim C4 -/

/-- C4: whenever internal_rotate returns Ok or the cache-miss error
(that is, unless a transport error aborted it), the keys map has no
entry at the retirement KeyId be_bytes(epoch(timestamp,
-backward_periods - 1)): the removal is the last map mutation. -/
theorem c4_retirement (hmac : Hmac) (cache : Cache) (s : RotatingKeys)
    (timestamp : Int)
    (hdur : 0 < s.duration)
    (hnt : (internal_rotate hmac cache s timestamp).2 ≠ .transport) :
    (internal_rotate hmac cache s timestamp).1.keys.lookup
      (be_bytes (epochAt s.duration timestamp (-s.backward_periods - 1))) = none := by
  cases hb2 : (rotateWindow hmac s.master_key s.pfx s.duration cache timestamp
      (windowOffsets s.backward_periods s.forward_periods) s.keys false).2.2
  · rw [internal_rotate_keys_eq hmac cache s timestamp hb2]
    exact AList.lookup_erase _ _
  · exact absurd (internal_rotate_outcome_transport hmac cache s timestamp hb2) hnt

/-- C4 witness at the source's own test scenario, timestamp 2: the
KeyId of epoch(2, -2) = 0 is absent after rotation. -/
theorem c4_witness :
    (internal_rotate testHmac testCache testRotor 2).1.keys.lookup
      (be_bytes (epochAt testRotor.duration 2 (-testRotor.backward_periods - 1)))
      = none :=
  c4_retirement testHmac testCache testRotor 2 (by decide) (by decide)

/-! Claim C5 -/

/-- A rotor whose period is 2^24 seconds, exposing the truncation of
KeyIds to the low 24 bits of the epoch. -/
def c5Rotor : RotatingKeys :=
  { pfx := "p", duration := 16777216, forward_periods := 0, backward_periods := 0,
    master_key := [], latest := (1, 1, 1, 1), keys := ∅ }

/-- C5 counterexample: with a period of 2^24 seconds, successive
successful rotations at timestamps 0 and 2^24 live in different epochs
(0 < 2^24) yet produce the same latest KeyId (0,0,0,0), because
be_bytes only keeps the low 24 bits of the epoch. -/
theorem c5_counterexample :
    (0 : Int) < c5Rotor.duration ∧ (0 : Int) < 16777216 ∧
    epochAt c5Rotor.duration 0 0 < epochAt c5Rotor.duration 16777216 0 ∧
    (internal_rotate testHmac allHitCache c5Rotor 0).2 = .ok ∧
    (internal_rotate testHmac allHitCache
        (internal_rotate testHmac allHitCache c5Rotor 0).1 16777216).2 = .ok ∧
    (internal_rotate testHmac allHitCache
        (internal_rotate testHmac allHitCache c5Rotor 0).1 16777216).1.latest
      = (internal_rotate testHmac allHitCache c5Rotor 0).1.latest := by decide

/-- C5 (amended): two rotations at t1 < t2 in different epochs give
different latest values provided neither aborts on a transport error
and the two epochs differ modulo 2^24 (be_bytes keeps only the low 24
bits of the epoch). -/
theorem c5_latest_distinct (hmac : Hmac) (cache1 cache2 : Cache) (s : RotatingKeys)
    (t1 t2 : Int) (hdur : 0 < s.duration) (ht : t1 < t2)
    (hlt : epochAt s.duration t1 0 < epochAt s.duration t2 0)
    (hmod : epochAt s.duration t1 0 % 2 ^ 24 ≠ epochAt s.duration t2 0 % 2 ^ 24)
    (h1 : (internal_rotate hmac cache1 s t1).2 ≠ .transport)
    (h2 : (internal_rotate hmac cache2 (internal_rotate hmac cache1 s t1).1 t2).2
      ≠ .transport) :
    (internal_rotate hmac cache2 (internal_rotate hmac cache1 s t1).1 t2).1.latest
      ≠ (internal_rotate hmac cache1 s t1).1.latest := by
  rw [internal_rotate_latest _ _ _ _ h2, internal_rotate_latest _ _ _ _ h1,
    internal_rotate_duration]
  exact be_bytes_ne _ _ (Ne.symm hmod)

/-- C5 witness: the source's own test scenario, rotations at
timestamps 2 and 3. -/
theorem c5_witness :
    (internal_rotate testHmac testCache
        (internal_rotate testHmac testCache testRotor 2).1 3).1.latest
      ≠ (internal_rotate testHmac testCache testRotor 2).1.latest :=
  c5_latest_distinct testHmac testCache testCache testRotor 2 3 (by decide)
    (by decide) (by decide) (by decide) (by decide) (by decide)

/-! Claim C7 -/

/-- Cache for the C7 counterexample: only epoch 33554432 is present. -/
def c7Cache : Cache := fun loc =>
  if loc = "p/33554432" then .ok (some [7]) else .ok none

/-- Rotor for the C7 counterexample: period 2^23, three window slots,
and a pre-existing entry at KeyId (0,0,0,0). -/
def c7Rotor : RotatingKeys :=
  { pfx := "p", duration := 8388608, forward_periods := 2, backward_periods := 0,
    master_key := [], latest := (1, 1, 1, 1),
    keys := (∅ : KeyMap).insert (0, 0, 0, 0) [9] }

/-- C7 counterexample: at timestamp 2^24 with duration 2^23 the slots
have epochs 2^24, 2^24 + 2^23, 2^25.  Slot 0 misses, slot 2 hits, and
be_bytes(2^25) = be_bytes(2^24) = (0,0,0,0), so the hit at slot 2
overwrites the entry sitting at the missing slot 0's KeyId, although
that KeyId is not the retirement id be_bytes(2^23) = (0,128,0,0).
The claim says such an entry is neither removed nor overwritten. -/
theorem c7_counterexample :
    c7Cache (slotLoc c7Rotor.pfx c7Rotor.duration 16777216 0) = .ok none ∧
    (0 : Int) ∈ windowOffsets c7Rotor.backward_periods c7Rotor.forward_periods ∧
    be_bytes (epochAt c7Rotor.duration 16777216 0)
      ≠ be_bytes (epochAt c7Rotor.duration 16777216 (-c7Rotor.backward_periods - 1)) ∧
    c7Rotor.keys.lookup (be_bytes (epochAt c7Rotor.duration 16777216 0)) = some [9] ∧
    (internal_rotate testHmac c7Cache c7Rotor 16777216).1.keys.lookup
      (be_bytes (epochAt c7Rotor.duration 16777216 0)) ≠ some [9] := by decide

/-- C7 (amended): an entry sitting at the KeyId of a window slot whose
cache lookup misses is left unchanged by internal_rotate, provided its
KeyId differs from the retirement KeyId (the exception the claim
already makes) and no other slot that hits shares that KeyId (KeyIds
collide exactly when the epochs agree modulo 2^24). -/
theorem c7_missing_slot_untouched (hmac : Hmac) (cache : Cache) (s : RotatingKeys)
    (timestamp : Int) (k0 : Int)
    (hk0 : k0 ∈ windowOffsets s.backward_periods s.forward_periods)
    (hm : cache (slotLoc s.pfx s.duration timestamp k0) = .ok none)
    (hnocoll : ∀ k ∈ windowOffsets s.backward_periods s.forward_periods,
      be_bytes (epochAt s.duration timestamp k)
          ≠ be_bytes (epochAt s.duration timestamp k0) ∨
        cache (slotLoc s.pfx s.duration timestamp k) = .ok none ∨
        cache (slotLoc s.pfx s.duration timestamp k) = .error .transport)
    (hret : be_bytes (epochAt s.duration timestamp k0)
      ≠ be_bytes (epochAt s.duration timestamp (-s.backward_periods - 1))) :
    (internal_rotate hmac cache s timestamp).1.keys.lookup
      (be_bytes (epochAt s.duration timestamp k0))
      = s.keys.lookup (be_bytes (epochAt s.duration timestamp k0)) := by
  have hpres := rotateWindow_lookup_preserved hmac s.master_key s.pfx s.duration
    cache timestamp (windowOffsets s.backward_periods s.forward_periods) s.keys false
    (be_bytes (epochAt s.duration timestamp k0)) hnocoll
  cases hb2 : (rotateWindow hmac s.master_key s.pfx s.duration cache timestamp
      (windowOffsets s.backward_periods s.forward_periods) s.keys false).2.2
  · rw [internal_rotate_keys_eq hmac cache s timestamp hb2,
      AList.lookup_erase_ne hret]
    exact hpres
  · rw [internal_rotate_keys_transport hmac cache s timestamp hb2]
    exact hpres

/-- C7 witness: the source's own test scenario at timestamp 1, where
the slot at offset -1 (epoch 0) is missing; the (empty) lookup at its
KeyId is unchanged. -/
theorem c7_witness :
    (internal_rotate testHmac testCache testRotor 1).1.keys.lookup
      (be_bytes (epochAt testRotor.duration 1 (-1)))
      = testRotor.keys.lookup (be_bytes (epochAt testRotor.duration 1 (-1))) :=
  c7_missing_slot_untouched testHmac testCache testRotor 1 (-1) (by decide)
    (by decide) (by decide) (by decide)

/-! Claim C9 -/

/-- A cache in which every location is missing. -/
def allMissCache : Cache := fun _ => .ok none

/-- Rotor for the C9 counterexample: a previous rotation has already
installed an entry at KeyId be_bytes(5) = (0,0,0,5). -/
def c9Rotor : RotatingKeys :=
  { pfx := "p", duration := 1, forward_periods := 0, backward_periods := 0,
    master_key := [], latest := (7, 7, 7, 7),
    keys := (∅ : KeyMap).insert (0, 0, 0, 5) [9] }

/-- C9 counterexample: rotating at timestamp 5 with the cache slot for
epoch(5, 0) missing still leaves latest() usable, because an entry at
be_bytes(5) already sat in the map and a miss never removes it.  The
claim's assertion that after such a rotation ANY latest() call panics
is therefore false. -/
theorem c9_counterexample :
    allMissCache (slotLoc c9Rotor.pfx c9Rotor.duration 5 0) = .ok none ∧
    (0 : Int) ∈ windowOffsets c9Rotor.backward_periods c9Rotor.forward_periods ∧
    (internal_rotate testHmac allMissCache c9Rotor 5).2 = .cacheMiss ∧
    (internal_rotate testHmac allMissCache c9Rotor 5).1.latest
      = be_bytes (epochAt c9Rotor.duration 5 0) ∧
    (internal_rotate testHmac allMissCache c9Rotor 5).1.latestLookup ≠ none := by
  decide

/-- C9 (amended): latest() indexes the keys map at the latest KeyId
and panics when it is absent.  After a rotation (not aborted by a
transport error) in which the cache slot for epoch(now, 0) was missing,
no entry at that KeyId was already in the map, and no colliding slot
installed one, latest points to no entry, so a subsequent latest()
call panics. -/
theorem c9_latest_panics (hmac : Hmac) (cache : Cache) (s : RotatingKeys)
    (timestamp : Int)
    (hm : cache (slotLoc s.pfx s.duration timestamp 0) = .ok none)
    (hnt : (internal_rotate hmac cache s timestamp).2 ≠ .transport)
    (hpre : s.keys.lookup (be_bytes (epochAt s.duration timestamp 0)) = none)
    (hnocoll : ∀ k ∈ windowOffsets s.backward_periods s.forward_periods,
      be_bytes (epochAt s.duration timestamp k)
          ≠ be_bytes (epochAt s.duration timestamp 0) ∨
        cache (slotLoc s.pfx s.duration timestamp k) = .ok none ∨
        cache (slotLoc s.pfx s.duration timestamp k) = .error .transport) :
    (internal_rotate hmac cache s timestamp).1.latestLookup = none := by
  have hlat := internal_rotate_latest hmac cache s timestamp hnt
  have hpres := rotateWindow_lookup_preserved hmac s.master_key s.pfx s.duration
    cache timestamp (windowOffsets s.backward_periods s.forward_periods) s.keys false
    (be_bytes (epochAt s.duration timestamp 0)) hnocoll
  cases hb2 : (rotateWindow hmac s.master_key s.pfx s.duration cache timestamp
      (windowOffsets s.backward_periods s.forward_periods) s.keys false).2.2
  · have hkeys := internal_rotate_keys_eq hmac cache s timestamp hb2
    have hnone : (internal_rotate hmac cache s timestamp).1.keys.lookup
        (be_bytes (epochAt s.duration timestamp 0)) = none := by
      rw [hkeys]
      by_cases he : be_bytes (epochAt s.duration timestamp 0)
          = be_bytes (epochAt s.duration timestamp (-s.backward_periods - 1))
      · rw [he]
        exact AList.lookup_erase _ _
      · rw [AList.lookup_erase_ne he, hpres]
        exact hpre
    unfold RotatingKeys.latestLookup
    rw [hlat, hnone]
  · exact absurd (internal_rotate_outcome_transport hmac cache s timestamp hb2) hnt

/-- C9 witness: the source's own test rotor at timestamp 5 against an
all-missing cache: rotation fails, latest points at be_bytes(5), and
latest() panics. -/
theorem c9_witness :
    (internal_rotate testHmac allMissCache testRotor 5).1.latestLookup = none :=
  c9_latest_panics testHmac allMissCache testRotor 5 (by decide) (by decide)
    (by decide) (by decide)

/-!
The NTS-KE handshake driver (src/nts_ke/client.rs).

The record codec lives in src/nts_ke/records.rs, which is not part of
the sources at hand; the records, the process_record folding and the
deserialization outcomes are therefore modelled from the spec
(sections 3 and 4.2).  The driver loop, the default fill-ins and the
address selection are embedded from src/nts_ke/client.rs.  The record
stream is taken after deserialization, as a list of records; unknown
non-critical records are skipped by the driver before process_record,
so they do not appear in the list.
-/

/-- Modelled from the spec: the known NTS-KE records of the missing
src/nts_ke/records.rs (spec section 3).  Bodies are byte lists, u16
values are naturals. -/
inductive NtsKeRecord where
  | endOfMessage
  | nextProtocols (ids : List Nat)
  | aeadAlgorithm (ids : List Nat)
  | newCookie (body : List Nat)
  | serverNeg (host : String)
  | portNeg (port : Nat)
  | errorRec (code : Nat)
  | warningRec (code : Nat)
deriving DecidableEq

def NtsKeRecord.isPortRec : NtsKeRecord → Bool
  | .portNeg _ => true
  | _ => false

def NtsKeRecord.isServerRec : NtsKeRecord → Bool
  | .serverNeg _ => true
  | _ => false

def NtsKeRecord.isAeadRec : NtsKeRecord → Bool
  | .aeadAlgorithm _ => true
  | _ => false

/-- The AEAD ids carried by a record (empty for non-AEAD records). -/
def NtsKeRecord.aeadIds : NtsKeRecord → List Nat
  | .aeadAlgorithm ids => ids
  | _ => []

/-- Embedding of the ReceivedNtsKeRecordState struct initialised in
run_nts_ke_client (src/nts_ke/client.rs lines 119 to 126). -/
structure ReceivedNtsKeRecordState where
  finished : Bool
  next_protocols : List Nat
  aead_scheme : List Nat
  cookies : List (List Nat)
  next_server : Option String
  next_port : Option Nat
deriving DecidableEq

/-- The state the driver starts the record loop with. -/
def initRecordState : ReceivedNtsKeRecordState :=
  { finished := false, next_protocols := [], aead_scheme := [], cookies := [],
    next_server := none, next_port := none }

/-- Errors that abort the record loop of run_nts_ke_client: a server
Error record, or a read_exact failure when the stream ends before
End-of-Message. -/
inductive KeClientErr where
  | serverError (code : Nat)
  | ioShortRead
deriving DecidableEq

/-- Modelled from the spec: process_record of the missing
src/nts_ke/records.rs (spec section 4.2).  End-of-Message finishes,
Next-Protocol and AEAD append their ids, New Cookie appends its body,
Server and Port set their fields with last value winning, Error aborts
the handshake, Warning is logged and skipped. -/
def process_record (r : NtsKeRecord) (st : ReceivedNtsKeRecordState) :
    Except KeClientErr ReceivedNtsKeRecordState :=
  match r with
  | .endOfMessage => .ok { st with finished := true }
  | .nextProtocols ids => .ok { st with next_protocols := st.next_protocols ++ ids }
  | .aeadAlgorithm ids => .ok { st with aead_scheme := st.aead_scheme ++ ids }
  | .newCookie body => .ok { st with cookies := st.cookies ++ [body] }
  | .serverNeg h => .ok { st with next_server := some h }
  | .portNeg p => .ok { st with next_port := some p }
  | .errorRec code => .error (.serverError code)
  | .warningRec _ => .ok st

/-- Embedding of the while !state.finished loop of run_nts_ke_client
(src/nts_ke/client.rs lines 128 to 184) over the deserialized record
stream: before each read the finished flag is checked; reading past
the end of the stream is the read_exact error; a process_record error
aborts the loop. -/
def runRecordLoop : List NtsKeRecord → ReceivedNtsKeRecordState →
    Except KeClientErr ReceivedNtsKeRecordState
  | [], st => if st.finished then .ok st else .error .ioShortRead
  | r :: rest, st =>
    if st.finished then .ok st
    else
      match process_record r st with
      | .ok st2 => runRecordLoop rest st2
      | .error e => .error e

/-- Embedding of the NtsKeResult struct of src/nts_ke/client.rs,
without the keys field: the keys come from the external TLS exporter
(records::gen_key) before the loop and are not touched by it. -/
structure NtsKeResult where
  cookies : List (List Nat)
  next_protocols : List Nat
  aead_scheme : Nat
  next_server : String
  next_port : Nat
  use_ipv6 : Bool
deriving DecidableEq

def DEFAULT_NTP_PORT : Nat := 123
def DEFAULT_SCHEME : Nat := 0

/-- Embedding of the result assembly of run_nts_ke_client
(src/nts_ke/client.rs lines 188 to 202): aead_scheme is the head of
the negotiated list or DEFAULT_SCHEME, next_server falls back to the
configured host, next_port to DEFAULT_NTP_PORT. -/
def assembleResult (host : String) (u6 : Bool) (st : ReceivedNtsKeRecordState) :
    NtsKeResult :=
  { aead_scheme := match st.aead_scheme with
      | [] => DEFAULT_SCHEME
      | a :: _ => a,
    cookies := st.cookies,
    next_protocols := st.next_protocols,
    next_server := st.next_server.getD host,
    next_port := st.next_port.getD DEFAULT_NTP_PORT,
    use_ipv6 := u6 }

/-! Lemmas about process_record and the record loop -/

theorem process_record_port (r : NtsKeRecord) (st st2 : ReceivedNtsKeRecordState)
    (h : process_record r st = .ok st2) (hr : r.isPortRec = false) :
    st2.next_port = st.next_port := by
  cases r <;> simp_all [process_record, NtsKeRecord.isPortRec] <;> simp [← h]

theorem process_record_server (r : NtsKeRecord) (st st2 : ReceivedNtsKeRecordState)
    (h : process_record r st = .ok st2) (hr : r.isServerRec = false) :
    st2.next_server = st.next_server := by
  cases r <;> simp_all [process_record, NtsKeRecord.isServerRec] <;> simp [← h]

theorem process_record_aead (r : NtsKeRecord) (st st2 : ReceivedNtsKeRecordState)
    (h : process_record r st = .ok st2) :
    st2.aead_scheme = st.aead_scheme ++ r.aeadIds := by
  cases r <;> simp_all [process_record, NtsKeRecord.aeadIds] <;> simp [← h]

theorem process_record_finished (r : NtsKeRecord) (st st2 : ReceivedNtsKeRecordState)
    (h : process_record r st = .ok st2) (hr : r ≠ .endOfMessage) :
    st2.finished = st.finished := by
  cases r <;> simp_all [process_record] <;> simp [← h]

/-- Ports survive a completed loop containing no Port record. -/
theorem runRecordLoop_port :
    ∀ (recs : List NtsKeRecord) (st st2 : ReceivedNtsKeRecordState),
      runRecordLoop recs st = .ok st2 → (∀ r ∈ recs, r.isPortRec = false) →
      st2.next_port = st.next_port
  | [], st, st2, h, _ => by
    cases hf : st.finished <;> simp [runRecordLoop, hf] at h
    rw [← h]
  | r :: rest, st, st2, h, hall => by
    cases hf : st.finished
    · simp only [runRecordLoop, hf, Bool.false_eq_true, if_false] at h
      cases hp : process_record r st with
      | ok stm =>
        rw [hp] at h
        have h2 := runRecordLoop_port rest stm st2 h
          (fun j hj => hall j (List.mem_cons_of_mem _ hj))
        rw [h2, process_record_port r st stm hp (hall r (List.mem_cons_self _ _))]
      | error e =>
        rw [hp] at h
        exact absurd h (by simp)
    · simp [runRecordLoop, hf] at h
      rw [← h]

/-- The negotiated server survives a completed loop containing no
Server record. -/
theorem runRecordLoop_server :
    ∀ (recs : List NtsKeRecord) (st st2 : ReceivedNtsKeRecordState),
      runRecordLoop recs st = .ok st2 → (∀ r ∈ recs, r.isServerRec = false) →
      st2.next_server = st.next_server
  | [], st, st2, h, _ => by
    cases hf : st.finished <;> simp [runRecordLoop, hf] at h
    rw [← h]
  | r :: rest, st, st2, h, hall => by
    cases hf : st.finished
    · simp only [runRecordLoop, hf, Bool.false_eq_true, if_false] at h
      cases hp : process_record r st with
      | ok stm =>
        rw [hp] at h
        have h2 := runRecordLoop_server rest stm st2 h
          (fun j hj => hall j (List.mem_cons_of_mem _ hj))
        rw [h2, process_record_server r st stm hp (hall r (List.mem_cons_self _ _))]
      | error e =>
        rw [hp] at h
        exact absurd h (by simp)
    · simp [runRecordLoop, hf] at h
      rw [← h]

/-- The negotiated AEAD list survives a completed loop containing no
AEAD record. -/
theorem runRecordLoop_aead_none :
    ∀ (recs : List NtsKeRecord) (st st2 : ReceivedNtsKeRecordState),
      runRecordLoop recs st = .ok st2 → (∀ r ∈ recs, r.isAeadRec = false) →
      st2.aead_scheme = st.aead_scheme
  | [], st, st2, h, _ => by
    cases hf : st.finished <;> simp [runRecordLoop, hf] at h
    rw [← h]
  | r :: rest, st, st2, h, hall => by
    cases hf : st.finished
    · simp only [runRecordLoop, hf, Bool.false_eq_true, if_false] at h
      cases hp : process_record r st with
      | ok stm =>
        rw [hp] at h
        have h2 := runRecordLoop_aead_none rest stm st2 h
          (fun j hj => hall j (List.mem_cons_of_mem _ hj))
        have h3 := process_record_aead r st stm hp
        have h4 : r.aeadIds = [] := by
          cases r <;> simp_all [NtsKeRecord.isAeadRec, NtsKeRecord.aeadIds]
        rw [h2, h3, h4, List.append_nil]
      | error e =>
        rw [hp] at h
        exact absurd h (by simp)
    · simp [runRecordLoop, hf] at h
      rw [← h]

/-- A completed loop only ever appends to the negotiated AEAD list. -/
theorem runRecordLoop_aead_append :
    ∀ (recs : List NtsKeRecord) (st st2 : ReceivedNtsKeRecordState),
      runRecordLoop recs st = .ok st2 →
      ∃ tl, st2.aead_scheme = st.aead_scheme ++ tl
  | [], st, st2, h => by
    cases hf : st.finished <;> simp [runRecordLoop, hf] at h
    exact ⟨[], by rw [← h, List.append_nil]⟩
  | r :: rest, st, st2, h => by
    cases hf : st.finished
    · simp only [runRecordLoop, hf, Bool.false_eq_true, if_false] at h
      cases hp : process_record r st with
      | ok stm =>
        rw [hp] at h
        rcases runRecordLoop_aead_append rest stm st2 h with ⟨tl, htl⟩
        exact ⟨r.aeadIds ++ tl, by
          rw [htl, process_record_aead r st stm hp, List.append_assoc]⟩
      | error e =>
        rw [hp] at h
        exact absurd h (by simp)
    · simp [runRecordLoop, hf] at h
      exact ⟨[], by rw [← h, List.append_nil]⟩

/-- When the stream puts an AEAD record with ids a :: ids after a
prefix that carries no AEAD ids and no End-of-Message, a completed
loop ends with a at the head of the negotiated list. -/
theorem runRecordLoop_first_aead :
    ∀ (pre : List NtsKeRecord) (a : Nat) (ids : List Nat)
      (post : List NtsKeRecord) (st st2 : ReceivedNtsKeRecordState),
      st.finished = false → st.aead_scheme = [] →
      (∀ r ∈ pre, r.aeadIds = [] ∧ r ≠ .endOfMessage) →
      runRecordLoop (pre ++ .aeadAlgorithm (a :: ids) :: post) st = .ok st2 →
      st2.aead_scheme.head? = some a
  | [], a, ids, post, st, st2, hf, ha, _, h => by
    simp only [List.nil_append, runRecordLoop, hf, Bool.false_eq_true, if_false] at h
    have hm : process_record (.aeadAlgorithm (a :: ids)) st
        = .ok { st with aead_scheme := st.aead_scheme ++ (a :: ids) } := rfl
    rw [hm] at h
    rcases runRecordLoop_aead_append post _ st2 h with ⟨tl, htl⟩
    rw [htl]
    simp [ha]
  | r :: pre, a, ids, post, st, st2, hf, ha, hall, h => by
    simp only [List.cons_append, runRecordLoop, hf, Bool.false_eq_true, if_false] at h
    cases hp : process_record r st with
    | ok stm =>
      rw [hp] at h
      have hids := (hall r (List.mem_cons_self _ _)).1
      have hnem := (hall r (List.mem_cons_self _ _)).2
      have hfm : stm.finished = false := by
        rw [process_record_finished r st stm hp hnem, hf]
      have ham : stm.aead_scheme = [] := by
        rw [process_record_aead r st stm hp, hids, ha, List.append_nil]
      exact runRecordLoop_first_aead pre a ids post stm st2 hfm ham
        (fun j hj => hall j (List.mem_cons_of_mem _ hj)) h
    | error e =>
      rw [hp] at h
      exact absurd h (by simp)

/-! Claim C6 -/

/-- C6: for every run of the record loop that completes, the assembled
result has next_port 123 when no Port record appeared, next_server
equal to the configured host when no Server record appeared,
aead_scheme 0 when no AEAD record appeared, and otherwise aead_scheme
equal to the first negotiated AEAD id (the first id of the first AEAD
record carrying any, all earlier records carrying none). -/
theorem c6_default_fill_in (stream : List NtsKeRecord) (host : String) (u6 : Bool)
    (st : ReceivedNtsKeRecordState)
    (hrun : runRecordLoop stream initRecordState = .ok st) :
    ((∀ r ∈ stream, r.isPortRec = false) →
      (assembleResult host u6 st).next_port = 123) ∧
    ((∀ r ∈ stream, r.isServerRec = false) →
      (assembleResult host u6 st).next_server = host) ∧
    ((∀ r ∈ stream, r.isAeadRec = false) →
      (assembleResult host u6 st).aead_scheme = 0) ∧
    (∀ (pre : List NtsKeRecord) (a : Nat) (ids : List Nat)
        (post : List NtsKeRecord),
      stream = pre ++ .aeadAlgorithm (a :: ids) :: post →
      (∀ r ∈ pre, r.aeadIds = [] ∧ r ≠ .endOfMessage) →
      (assembleResult host u6 st).aead_scheme = a) := by
  refine ⟨?_, ?_, ?_, ?_⟩
  · intro hall
    have h := runRecordLoop_port stream initRecordState st hrun hall
    simp [assembleResult, h, initRecordState, DEFAULT_NTP_PORT]
  · intro hall
    have h := runRecordLoop_server stream initRecordState st hrun hall
    simp [assembleResult, h, initRecordState]
  · intro hall
    have h := runRecordLoop_aead_none stream initRecordState st hrun hall
    simp [assembleResult, h, initRecordState, DEFAULT_SCHEME]
  · intro pre a ids post hs hpre
    rw [hs] at hrun
    have h := runRecordLoop_first_aead pre a ids post initRecordState st rfl rfl
      hpre hrun
    cases hsch : st.aead_scheme with
    | nil => rw [hsch] at h; exact absurd h (by simp)
    | cons b tl =>
      rw [hsch] at h
      simp only [List.head?] at h
      have hb : b = a := by
        injection h
      simp [assembleResult, hsch, hb]

/-- C6 witness: the minimal handshake stream with one AEAD record
carrying id 15 followed by End-of-Message. -/
theorem c6_witness :
    (assembleResult "time.example" false
      { finished := true, next_protocols := [], aead_scheme := [15],
        cookies := [], next_server := none, next_port := none }).next_port = 123 ∧
    (assembleResult "time.example" false
      { finished := true, next_protocols := [], aead_scheme := [15],
        cookies := [], next_server := none, next_port := none }).aead_scheme = 15 := by
  have h := c6_default_fill_in
    [.aeadAlgorithm [15], .endOfMessage] "time.example" false
    { finished := true, next_protocols := [], aead_scheme := [15],
      cookies := [], next_server := none, next_port := none } (by decide)
  exact ⟨h.1 (by decide), h.2.2.2 [] 15 [] [.endOfMessage] rfl (by decide)⟩

/-! Claim C8 -/

/-- Addresses as the driver sees them after resolution: each one is
either IPv4 or IPv6, the payload stands for the rest of the socket
address. -/
inductive IpAddress where
  | v4 (a : Nat)
  | v6 (a : Nat)
deriving DecidableEq

def IpAddress.is_ipv6 : IpAddress → Bool
  | .v6 _ => true
  | .v4 _ => false

def IpAddress.is_ipv4 : IpAddress → Bool
  | .v4 _ => true
  | .v6 _ => false

/-- The two address-family errors of NtsKeParseError surfaced by
run_nts_ke_client (src/nts_ke/client.rs lines 86 to 100). -/
inductive NtsKeParseError where
  | NoIpv4AddrFound
  | NoIpv6AddrFound
deriving DecidableEq

/-- Embedding of the address selection of run_nts_ke_client
(src/nts_ke/client.rs lines 86 to 100): Iterator::find takes the first
address of the mandated family, and its absence is the corresponding
NtsKeParseError. -/
def selectAddr (use_ipv6 : Bool) (addrs : List IpAddress) :
    Except NtsKeParseError IpAddress :=
  if use_ipv6 then
    match addrs.find? (fun x => x.is_ipv6) with
    | some a => .ok a
    | none => .error .NoIpv6AddrFound
  else
    match addrs.find? (fun x => x.is_ipv4) with
    | some a => .ok a
    | none => .error .NoIpv4AddrFound

/-- The first element of a list satisfying p, when the prefix before
it has none, is what find? returns. -/
theorem find?_first_match (p : IpAddress → Bool) :
    ∀ (pre post : List IpAddress) (a : IpAddress),
      (∀ b ∈ pre, p b = false) → p a = true →
      (pre ++ a :: post).find? p = some a
  | [], post, a, _, ha => by simp [List.find?, ha]
  | b :: pre, post, a, hpre, ha => by
    have hb := hpre b (List.mem_cons_self _ _)
    simp only [List.cons_append, List.find?, hb]
    exact find?_first_match p pre post a
      (fun x hx => hpre x (List.mem_cons_of_mem _ hx)) ha

/-- C8: with use_ipv6 the driver selects the first IPv6 address of the
resolved list and fails with NoIpv6AddrFound when there is none;
without it, the first IPv4 address and NoIpv4AddrFound. -/
theorem c8_address_selection (addrs : List IpAddress) :
    ((∀ a ∈ addrs, a.is_ipv6 = false) →
      selectAddr true addrs = .error .NoIpv6AddrFound) ∧
    (∀ (pre : List IpAddress) (a : IpAddress) (post : List IpAddress),
      addrs = pre ++ a :: post → (∀ b ∈ pre, b.is_ipv6 = false) →
      a.is_ipv6 = true → selectAddr true addrs = .ok a) ∧
    ((∀ a ∈ addrs, a.is_ipv4 = false) →
      selectAddr false addrs = .error .NoIpv4AddrFound) ∧
    (∀ (pre : List IpAddress) (a : IpAddress) (post : List IpAddress),
      addrs = pre ++ a :: post → (∀ b ∈ pre, b.is_ipv4 = false) →
      a.is_ipv4 = true → selectAddr false addrs = .ok a) := by
  refine ⟨?_, ?_, ?_, ?_⟩
  · intro hall
    have hn : addrs.find? (fun x => x.is_ipv6) = none :=
      List.find?_eq_none.mpr (fun x hx => by simp [hall x hx])
    simp [selectAddr, hn]
  · intro pre a post hs hpre ha
    rw [hs]
    have hf := find?_first_match (fun x => x.is_ipv6) pre post a hpre ha
    simp [selectAddr, hf]
  · intro hall
    have hn : addrs.find? (fun x => x.is_ipv4) = none :=
      List.find?_eq_none.mpr (fun x hx => by simp [hall x hx])
    simp [selectAddr, hn]
  · intro pre a post hs hpre ha
    rw [hs]
    have hf := find?_first_match (fun x => x.is_ipv4) pre post a hpre ha
    simp [selectAddr, hf]

/-- C8 witness: a mixed list selects the first IPv6 when mandated, and
an IPv6-only list yields NoIpv4AddrFound when IPv4 is mandated. -/
theorem c8_witness :
    selectAddr true [IpAddress.v4 1, IpAddress.v6 2, IpAddress.v6 3]
      = .ok (IpAddress.v6 2) ∧
    selectAddr false [IpAddress.v6 2] = .error .NoIpv4AddrFound := by
  have h := c8_address_selection [IpAddress.v4 1, IpAddress.v6 2, IpAddress.v6 3]
  have h2 := c8_address_selection [IpAddress.v6 2]
  exact ⟨h.2.1 [IpAddress.v4 1] (IpAddress.v6 2) [IpAddress.v6 3] rfl
      (by decide) (by decide),
    h2.2.2.1 (by decide)⟩

/-! Claim C10 -/

/-- Errors run_nts_ke_client can return from its setup phase:
resolution failure, or a missing address of the mandated family. -/
inductive DriverErr where
  | resolution
  | parse (e : NtsKeParseError)
deriving DecidableEq

/-- What the front of run_nts_ke_client does before any network
round-trip: panic, return an error, or go on to connect. -/
inductive DriverStep where
  | panicked (msg : String)
  | failed (e : DriverErr)
  | connecting (addr : IpAddress)
deriving DecidableEq

/-- Embedding of run_nts_ke_client up to the TCP connect
(src/nts_ke/client.rs lines 68 to 101).  The validity of the host as a
TLS server name (decided externally by rustls ServerName::try_from)
and the resolver output are parameters.  An invalid host hits
expect("server hostname is invalid") and panics; a failed
ClientConnection::new hits expect("Failed to connect"); only after
both expects does the function return errors normally. -/
def clientPreamble (serverNameOk : Bool) (connectionOk : Bool)
    (resolved : Except Unit (List IpAddress)) (use_ipv6 : Bool) : DriverStep :=
  if serverNameOk = false then .panicked "server hostname is invalid"
  else if connectionOk = false then .panicked "Failed to connect"
  else
    match resolved with
    | .error _ => .failed .resolution
    | .ok addrs =>
      match selectAddr use_ipv6 addrs with
      | .ok a => .connecting a
      | .error e => .failed (.parse e)

/-- C10: when the configured host is not a valid TLS server name the
driver panics through expect instead of returning an error: the
outcome is the panic and is not DriverStep.failed e for any error e. -/
theorem c10_invalid_host_panics (serverNameOk connectionOk : Bool)
    (resolved : Except Unit (List IpAddress)) (u6 : Bool)
    (h : serverNameOk = false) :
    clientPreamble serverNameOk connectionOk resolved u6
        = .panicked "server hostname is invalid" ∧
      ∀ e : DriverErr,
        clientPreamble serverNameOk connectionOk resolved u6 ≠ .failed e := by
  subst h
  exact ⟨rfl, fun e hh => by simp [clientPreamble] at hh⟩

/-- C10 witness: a concrete invalid-host run panics. -/
theorem c10_witness :
    clientPreamble false true (Except.ok [IpAddress.v4 1]) false
      = DriverStep.panicked "server hostname is invalid" :=
  (c10_invalid_host_panics false true (Except.ok [IpAddress.v4 1]) false rfl).1
